import Mathlib

/-!
Shallow embedding of two files of the vLLM serving repository:

* `vllm/entrypoints/utils.py` — the request middleware: the cancellation
  decorator `with_cancellation`, the disconnect listener
  `listen_for_disconnect`, and the load-tracking decorator `load_aware_call`
  together with its helper `decrement_server_load`.

* `vllm/executor/uniproc_executor.py` — the single-process executor
  `UniProcExecutor` (bootstrap `_init_executor`, `collective_rpc`,
  `reinitialize_distributed`) and its subclass
  `ExecutorWithExternalLauncher` (`_init_executor` with its configuration
  asserts, and `determine_num_available_blocks` with the cross-rank
  MIN-reduction).

Async orchestration is embedded by making the scheduling decisions explicit
parameters (which task of a two-task race finishes first; the ordered list of
messages a receive channel yields) and shared mutable application state is
embedded by explicit state passing.
-/

namespace VllmSpec

/-! ## Model of `request.app.state` (entrypoints/utils.py)

The Python code probes the application state with `getattr(..., False)` for
the flag `enable_server_load_tracking` (absence reads as `False`, so a plain
`Bool` field is faithful) and with `hasattr` for the counter
`server_load_metrics` (absence is observable, so the counter is an
`Option Int`, `none` meaning the attribute does not exist). -/

structure AppState where
  enable_server_load_tracking : Bool
  server_load_metrics : Option Int
deriving DecidableEq, Repr

/-! ## `with_cancellation` (entrypoints/utils.py lines 48–90)

The wrapper starts the handler task and the disconnect-listener task,
`await asyncio.wait(..., return_when=FIRST_COMPLETED)`, cancels the pending
task, and returns `handler_task.result()` if the handler finished, else
`None`.  The race is embedded by a `Winner` oracle saying which task
completed first; the handler behaviour is embedded as its final outcome, an
`Except` value (`.error` = the handler raised).  The wrapper result is
`Except ε (Option α)`: `.ok (some a)` is the handler result `a` delivered
unchanged, `.error e` is the handler exception re-raised by
`handler_task.result()`, and `.ok none` is the `None` sentinel of the
disconnect path. -/

inductive Winner where
  | handlerFirst
  | disconnectFirst
deriving DecidableEq, Repr

/-- CancelledUnit records which of the two pending tasks the wrapper
cancelled in its `for task in pending: task.cancel()` loop. -/
inductive CancelledUnit where
  | cancellationTask
  | handlerTask
deriving DecidableEq, Repr

/-- Embedding of `with_cancellation.wrapper`: given which task completed
first and the handler's outcome, return the wrapper's returned value and
which task was cancelled. -/
def with_cancellation {α ε : Type} (w : Winner) (h : Except ε α) :
    Except ε (Option α) × CancelledUnit :=
  match w with
  | .handlerFirst =>
      -- handler_task in done: return handler_task.result(), which yields the
      -- handler's value or re-raises its exception; the pending
      -- cancellation_task is cancelled.
      (h.map some, .cancellationTask)
  | .disconnectFirst =>
      -- cancellation_task in done: return None; the pending handler_task is
      -- cancelled.
      (.ok none, .handlerTask)

/-! ## `listen_for_disconnect` (entrypoints/utils.py lines 33–45)

The loop repeatedly awaits `request.receive()`; a non-disconnect message is
discarded, an `http.disconnect` message triggers the conditional decrement
and `break`.  The receive channel is embedded as the list of messages it
will yield; the function returns `some` updated state when a disconnect
message is observed and `none` when the list is exhausted without one (the
real coroutine would stay suspended forever). -/

inductive RcvMessage where
  | httpDisconnect
  | other (s : String)
deriving DecidableEq, Repr

/-- Embedding of `listen_for_disconnect`: scan the messages for
`http.disconnect`; on observing it, decrement `server_load_metrics` only if
`enable_server_load_tracking` reads true and the counter attribute exists,
else leave the state untouched. -/
def listen_for_disconnect : List RcvMessage → AppState → Option AppState
  | [], _ => none
  | .httpDisconnect :: _, st =>
      some (if st.enable_server_load_tracking && st.server_load_metrics.isSome
            then { st with server_load_metrics := st.server_load_metrics.map (· - 1) }
            else st)
  | .other _ :: rest, st => listen_for_disconnect rest st

/-! ## Responses and background (finalize-hook) sequences

`load_aware_call` inspects `isinstance(response, (JSONResponse,
StreamingResponse))` — embedded as the `Response.hooked` constructor, every
other response type being `Response.plain` — and the `response.background`
attribute, which is `None`, a single `BackgroundTask`, or a
`BackgroundTasks` collection. -/

/-- BgTask is the payload of one background task; the decrement hook
`BackgroundTask(decrement_server_load, raw_request)` is the distinguished
constructor, every other callback is `other`. -/
inductive BgTask where
  | decrementLoad
  | other (n : Nat)
deriving DecidableEq, Repr

/-- Background mirrors the runtime type of `response.background` when it is
not `None`: a single `BackgroundTask` or a `BackgroundTasks` collection
holding an ordered list of tasks. -/
inductive Background where
  | single (t : BgTask)
  | multi (ts : List BgTask)
deriving DecidableEq, Repr

/-- HookedResponse models a `JSONResponse`/`StreamingResponse`: the only
field the wrapper touches is `background` (`none` = Python `None`). -/
structure HookedResponse where
  background : Option Background
deriving DecidableEq, Repr

inductive Response where
  | hooked (r : HookedResponse)
  | plain
deriving DecidableEq, Repr

/-- hookList flattens a `background` attribute into the ordered sequence of
finalize hooks it will run. -/
def hookList : Option Background → List BgTask
  | none => []
  | some (.single t) => [t]
  | some (.multi ts) => ts

/-! ## `decrement_server_load` (entrypoints/utils.py lines 93–94)

`request.app.state.server_load_metrics -= 1` unconditionally; if the
attribute does not exist Python raises `AttributeError`, embedded as
`none`. -/

def decrement_server_load (st : AppState) : Option AppState :=
  match st.server_load_metrics with
  | none => none
  | some v => some { st with server_load_metrics := some (v - 1) }

/-! ## `load_aware_call` (entrypoints/utils.py lines 97–144)

The wrapped handler is embedded by its outcome alone: it returns a
`Response`, raises an `Exception` (caught by the wrapper's `except
Exception` branch), or is cancelled — `asyncio.CancelledError` derives from
`BaseException`, so the wrapper's `except Exception` branch does NOT catch
it and no decrement runs on that path. -/

inductive HandlerOutcome where
  | ok (r : Response)
  | raises (e : String)
  | cancelled
deriving DecidableEq, Repr

/-- LoadCallResult is the observable outcome of one pass through
`load_aware_call.wrapper` together with the application state it leaves
behind: the fail-fast `ValueError` (raised before any state is touched), a
re-raised handler exception, a propagated cancellation, or a returned
response. -/
inductive LoadCallResult where
  | valueError
  | handlerError (e : String) (st : AppState)
  | cancelledProp (st : AppState)
  | success (r : Response) (st : AppState)
deriving DecidableEq, Repr

/-- Embedding of `load_aware_call.wrapper`.  `rawRequestFound` says whether
`kwargs.get("raw_request", args[1] if len(args) > 1 else None)` located the
request (the state is only reachable through it).  The branches follow the
source in order: the `raw_request is None` ValueError; the
`enable_server_load_tracking` getattr test (handler called directly when
false); the lazy `server_load_metrics = 0` initialization; the increment;
the `except Exception` decrement on a raised handler (cancellation passes
through undecremented); the background-hook attachment for
`JSONResponse`/`StreamingResponse` results; the immediate decrement for
every other response type. -/
def load_aware_call (rawRequestFound : Bool) (h : HandlerOutcome)
    (st : AppState) : LoadCallResult :=
  if !rawRequestFound then
    .valueError
  else if !st.enable_server_load_tracking then
    match h with
    | .ok r => .success r st
    | .raises e => .handlerError e st
    | .cancelled => .cancelledProp st
  else
    -- ensure the counter exists, then increment it
    let st1 : AppState :=
      { st with server_load_metrics := some (st.server_load_metrics.getD 0) }
    let st2 : AppState :=
      { st1 with server_load_metrics := st1.server_load_metrics.map (· + 1) }
    match h with
    | .raises e =>
        .handlerError e
          { st2 with server_load_metrics := st2.server_load_metrics.map (· - 1) }
    | .cancelled => .cancelledProp st2
    | .ok r =>
        match r with
        | .hooked hr =>
            let newBg : Background :=
              match hr.background with
              | none => .single .decrementLoad
              | some (.multi ts) => .multi (ts ++ [.decrementLoad])
              | some (.single t) => .multi ([t] ++ [.decrementLoad])
            .success (.hooked { background := some newBg }) st2
        | .plain =>
            .success .plain
              { st2 with server_load_metrics := st2.server_load_metrics.map (· - 1) }

/-- resultHooks extracts the finalize-hook sequence of a successful hooked
response, `none` for every other result. -/
def resultHooks : LoadCallResult → Option (List BgTask)
  | .success (.hooked hr) _ => some (hookList hr.background)
  | _ => none

/-! ## Counter traces for concurrent tracked requests

Under the single-threaded cooperative scheduler every mutation of
`server_load_metrics` is one atomic event.  A tracked request contributes,
over its whole lifetime, the increment at entry to `load_aware_call.wrapper`
and exactly one decrement, whose site depends on how the request ends:

* the `except Exception` branch of the wrapper, when the handler raises;
* the `else` branch of the wrapper, when the handler returns a response
  without a hook mechanism;
* `decrement_server_load` run by the appended `BackgroundTask`, when the
  handler returns a `JSONResponse`/`StreamingResponse`;
* `listen_for_disconnect`, when the client disconnects and the handler is
  cancelled.

A run with N concurrent tracked requests is embedded as the interleaved
trace of these counter events, each tagged with the request it belongs to;
per request, the events appear in program order. -/

inductive TrackedOutcome where
  | handlerRaises
  | plainResponse
  | hookedResponse
  | disconnected
deriving DecidableEq, Repr

/-- lifecycleDeltas gives the ordered counter mutations one tracked request
performs over its lifetime, by how it ends: in every case the `+= 1` of
`load_aware_call.wrapper` followed by the single `-= 1` of the matching
decrement site listed above. -/
def lifecycleDeltas : TrackedOutcome → List Int
  | .handlerRaises => [1, -1]
  | .plainResponse => [1, -1]
  | .hookedResponse => [1, -1]
  | .disconnected => [1, -1]

/-- traceSum is the value of `server_load_metrics` (relative to its initial
0) after the events of a trace have run. -/
def traceSum (L : List (Nat × Int)) : Int :=
  (L.map Prod.snd).sum

/-- isInterleaving L N f says the trace L is an interleaving of the
per-request event lists f 0, …, f (N-1): every event is tagged with a
request id below N, and the events of request i, in trace order, are exactly
f i. -/
def isInterleaving (L : List (Nat × Int)) (N : Nat) (f : Nat → List Int) : Prop :=
  (∀ p ∈ L, p.1 < N) ∧
    ∀ i : Fin N, (L.filter (fun p => p.1 = i.1)).map Prod.snd = f i.1

/-! ## Executor model (executor/uniproc_executor.py)

The worker (`WorkerWrapperBase` together with `run_method` from
`vllm.utils`) is an external collaborator and is embedded as a parameter: a
worker state type W, an answer type R, and a function run_method taking the
worker, a method name, and the call's arguments to a new worker state and an
answer.  The only structured argument the executor ever builds is the
`kwargs` dict it hands to `init_worker`. -/

/-- WorkerInitKwargs is the `kwargs` dict built by `_init_executor` and
passed to `collective_rpc("init_worker", args=([kwargs],))` (the
`vllm_config` entry, an opaque handle to external configuration, is
omitted). -/
structure WorkerInitKwargs where
  local_rank : Nat
  rank : Nat
  distributed_init_method : String
  is_driver_worker : Bool
deriving DecidableEq, Repr

/-- ExecState: lifecycle state of the executor.  Modelled from the spec:
`ExecutorBase` (the base class holding the lifecycle and `shutdown()`) is
not part of the two source files; the spec gives the state machine
`… → READY → SHUTDOWN (terminal)`. -/
inductive ExecState where
  | ready
  | shutdownState
deriving DecidableEq, Repr

/-- Exec is the executor object: its single `driver_worker` and its
lifecycle state (the latter modelled from the spec, see ExecState). -/
structure Exec (W : Type) where
  driver_worker : W
  state : ExecState

/-- Embedding of `UniProcExecutor.collective_rpc`: run the method on the
driver worker synchronously and return the one-element answer list.  The
source performs no state or health check whatsoever — it unconditionally
dispatches `run_method(self.driver_worker, method, args, kwargs)` (the
`timeout` parameter is accepted and never used). -/
def collective_rpc {W R : Type}
    (run_method : W → String → List WorkerInitKwargs → W × R)
    (ex : Exec W) (method : String) (args : List WorkerInitKwargs) :
    Exec W × List R :=
  let wa := run_method ex.driver_worker method args
  ({ ex with driver_worker := wa.1 }, [wa.2])

/-- Embedding of `UniProcExecutor._init_executor`: construct the driver
worker, compute `local_rank` from the configured device index when one is
present (the `device.__str__().split(":")` probe) else 0, build the
`kwargs` dict with rank 0 and `is_driver_worker=True`, and issue the three
bootstrap RPCs `init_worker`, `init_device`, `load_model` in that order.
`distributed_init_method` arrives from the external
`get_distributed_init_method(get_ip(), get_open_port())`. -/
def uniproc_init_executor {W R : Type}
    (run_method : W → String → List WorkerInitKwargs → W × R)
    (w0 : W) (distributed_init_method : String) (device_index : Option Nat) :
    Exec W :=
  let ex0 : Exec W := { driver_worker := w0, state := .ready }
  let local_rank : Nat := device_index.getD 0
  let kw : WorkerInitKwargs :=
    { local_rank := local_rank
      rank := 0
      distributed_init_method := distributed_init_method
      is_driver_worker := true }
  let ex1 := (collective_rpc run_method ex0 "init_worker" [kw]).1
  let ex2 := (collective_rpc run_method ex1 "init_device" []).1
  let ex3 := (collective_rpc run_method ex2 "load_model" []).1
  ex3

/-- loggingWorker is the run_method instance whose worker state is the
ordered log of (method, args) calls it has received; it is how the theorems
observe which methods the executor dispatched and in what order. -/
def loggingWorker (w : List (String × List WorkerInitKwargs)) (m : String)
    (a : List WorkerInitKwargs) :
    List (String × List WorkerInitKwargs) × Unit :=
  (w ++ [(m, a)], ())

/-- ReconfigRank is the `new_data_parallel_rank` field of a
`ReconfigureDistributedRequest`: a concrete rank or one of the
`ReconfigureRankType` sentinels (the comparison in
`reinitialize_distributed` tests only the shutdown sentinel). -/
inductive ReconfigRank where
  | rank (n : Nat)
  | keepCurrentRank
  | shutdownCurrentRank
deriving DecidableEq, Repr

/-- ReconfigureDistributedRequest: the one field
`reinitialize_distributed` reads. -/
structure ReconfigureDistributedRequest where
  new_data_parallel_rank : ReconfigRank
deriving DecidableEq, Repr

/-- Modelled from the spec: `ExecutorBase.shutdown` is not in the source
files; per the spec the executor transitions into the terminal SHUTDOWN
state. -/
def Exec.shutdown {W : Type} (ex : Exec W) : Exec W :=
  { ex with state := .shutdownState }

/-- Embedding of `UniProcExecutor.reinitialize_distributed`: forward the
request to the driver worker (its effect is the external parameter
worker_reconfig), then, exactly when `new_data_parallel_rank` is the
shutdown sentinel, call `self.shutdown()`. -/
def reinitialize_distributed {W : Type}
    (worker_reconfig : W → ReconfigureDistributedRequest → W)
    (ex : Exec W) (req : ReconfigureDistributedRequest) : Exec W :=
  let ex1 : Exec W := { ex with driver_worker := worker_reconfig ex.driver_worker req }
  if req.new_data_parallel_rank = .shutdownCurrentRank then ex1.shutdown else ex1

/-! ## `ExecutorWithExternalLauncher._init_executor` (lines 96–129)

The effectful steps are recorded in order in an explicit trace so the
theorems can state what ran before a failure.  The two asserts precede
worker construction; the `os.environ["RANK"]`/`["LOCAL_RANK"]` reads follow
it and raise KeyError when absent (the environment is embedded as Option
values). -/

inductive InitStep where
  | createWorker
  | rpc (method : String) (args : List WorkerInitKwargs)
deriving DecidableEq, Repr

inductive InitError where
  | assertDelayFactor
  | assertV1Multiprocessing
  | missingEnv (name : String)
deriving DecidableEq, Repr

/-- Embedding of `ExecutorWithExternalLauncher._init_executor`, returning
the ordered trace of effectful steps taken and the outcome.  In source
order: assert `scheduler_config.delay_factor == 0.0`; if `VLLM_USE_V1`,
assert `VLLM_ENABLE_V1_MULTIPROCESSING` is off; construct the driver
worker; read RANK and LOCAL_RANK from the environment
(`distributed_init_method` is the literal "env://"); issue the three
bootstrap RPCs.  The delay factor, a Python float compared to 0.0 exactly,
is embedded as a rational. -/
def external_init_executor (delay_factor : ℚ) (use_v1 : Bool)
    (enable_v1_multiprocessing : Bool) (envRank : Option Nat)
    (envLocalRank : Option Nat) : List InitStep × Except InitError Unit :=
  if delay_factor ≠ 0 then
    ([], .error .assertDelayFactor)
  else if use_v1 && enable_v1_multiprocessing then
    ([], .error .assertV1Multiprocessing)
  else
    match envRank with
    | none => ([.createWorker], .error (.missingEnv "RANK"))
    | some rank =>
      match envLocalRank with
      | none => ([.createWorker], .error (.missingEnv "LOCAL_RANK"))
      | some local_rank =>
        let kw : WorkerInitKwargs :=
          { local_rank := local_rank
            rank := rank
            distributed_init_method := "env://"
            is_driver_worker := true }
        ([.createWorker, .rpc "init_worker" [kw], .rpc "init_device" [],
          .rpc "load_model" []], .ok ())

/-! ## `ExecutorWithExternalLauncher.determine_num_available_blocks`
(lines 131–148)

Each rank computes its local `(a, b)` pair the way the base executor would
(an external collaborator: the pairs arrive as the per-rank reports list),
then performs `dist.all_reduce(•, op=MIN)` on each component over the CPU
group — every rank ends up holding the minimum of that component across all
ranks, its own included. -/

/-- Embedding of `determine_num_available_blocks` as seen by rank r of the
group: reports lists every rank's locally computed (num_device_blocks,
num_host_blocks) pair; the two MIN all-reduces replace the local pair by
the componentwise minimum over the whole group. -/
def determine_num_available_blocks (reports : List (Int × Int))
    (r : Fin reports.length) : Int × Int :=
  let ab := reports.get r
  ((reports.map Prod.fst).foldl min ab.1,
   (reports.map Prod.snd).foldl min ab.2)

/-! ## Theorems -/

/-- C1: for every request wrapped by `with_cancellation`, exactly one of two
outcomes occurs — if the handler task completes first the guard returns the
handler's exact result (or re-raises its exact exception) and cancels the
disconnect-watching task; if the disconnect is observed first the guard
returns the `None` sentinel and cancels the handler task; the sentinel
outcome and a handler outcome are mutually exclusive and one of them always
happens. -/
theorem C1_with_cancellation_exclusive_outcomes {α ε : Type} (w : Winner)
    (h : Except ε α) :
    with_cancellation Winner.handlerFirst h =
      (h.map some, CancelledUnit.cancellationTask) ∧
    with_cancellation Winner.disconnectFirst h =
      (Except.ok none, CancelledUnit.handlerTask) ∧
    ((with_cancellation w h).1 = Except.ok none ∧
        (with_cancellation w h).2 = CancelledUnit.handlerTask ∨
      (with_cancellation w h).1 = h.map some ∧
        (with_cancellation w h).2 = CancelledUnit.cancellationTask) ∧
    ¬((with_cancellation w h).1 = Except.ok none ∧
        (with_cancellation w h).1 = h.map some) := by
  refine ⟨rfl, rfl, ?_, ?_⟩
  · cases w
    · exact Or.inr ⟨rfl, rfl⟩
    · exact Or.inl ⟨rfl, rfl⟩
  · rintro ⟨h1, h2⟩
    cases w <;> cases h <;> simp [with_cancellation, Except.map] at h1 h2

/-- C3 counterexample: with tracking disabled on the state but the request
object not locatable among the call arguments, `load_aware_call` raises the
`ValueError` instead of invoking the handler directly and returning its
result unchanged — refuting the "regardless of whether the request object
can be located" part of the claim. -/
theorem C3_counterexample :
    load_aware_call false (HandlerOutcome.ok Response.plain)
        { enable_server_load_tracking := false, server_load_metrics := none } =
      LoadCallResult.valueError ∧
    load_aware_call false (HandlerOutcome.ok Response.plain)
        { enable_server_load_tracking := false, server_load_metrics := none } ≠
      LoadCallResult.success Response.plain
        { enable_server_load_tracking := false, server_load_metrics := none } := by
  exact ⟨rfl, by decide⟩

/-- C3 (amended): when the request object is located and tracking is
disabled, the handler is invoked directly and its outcome (result,
exception, or cancellation) passes through unchanged with no counter
mutation; when the request object cannot be located the wrapper raises the
usage ValueError before doing anything else, regardless of tracking. -/
theorem C3_tracking_disabled_direct_call (h : HandlerOutcome) (st : AppState)
    (hTrack : st.enable_server_load_tracking = false) :
    (load_aware_call true h st =
      match h with
      | .ok r => LoadCallResult.success r st
      | .raises e => LoadCallResult.handlerError e st
      | .cancelled => LoadCallResult.cancelledProp st) ∧
    ∀ (h2 : HandlerOutcome) (st2 : AppState),
      load_aware_call false h2 st2 = LoadCallResult.valueError := by
  constructor
  · cases h <;> simp [load_aware_call, hTrack]
  · intro h2 st2
    simp [load_aware_call]

/-- C3 witness: concrete run of the amended claim at a disabled-tracking
state with the request located. -/
theorem C3_tracking_disabled_direct_call_witness :
    load_aware_call true (HandlerOutcome.ok Response.plain)
        { enable_server_load_tracking := false, server_load_metrics := none } =
      LoadCallResult.success Response.plain
        { enable_server_load_tracking := false, server_load_metrics := none } :=
  (C3_tracking_disabled_direct_call (HandlerOutcome.ok Response.plain)
    { enable_server_load_tracking := false, server_load_metrics := none } rfl).1

/-- C4: on a tracked call whose handler raises, the wrapper decrements the
counter exactly once — leaving it at the value it had just before the
increment (the lazily initialized value when the attribute was absent) —
and re-raises the handler's exception unmodified. -/
theorem C4_failed_request_net_zero (e : String) (st : AppState)
    (hTrack : st.enable_server_load_tracking = true) :
    load_aware_call true (HandlerOutcome.raises e) st =
      LoadCallResult.handlerError e
        { st with server_load_metrics := some (st.server_load_metrics.getD 0) } := by
  simp [load_aware_call, hTrack]

/-- C4 witness: a failed tracked request at counter 5 ends back at 5 with
the exception re-raised. -/
theorem C4_failed_request_net_zero_witness :
    load_aware_call true (HandlerOutcome.raises "boom")
        { enable_server_load_tracking := true, server_load_metrics := some 5 } =
      LoadCallResult.handlerError "boom"
        { enable_server_load_tracking := true, server_load_metrics := some 5 } := by
  have h := C4_failed_request_net_zero "boom"
    { enable_server_load_tracking := true, server_load_metrics := some 5 } rfl
  simpa using h

/-- C5: on a tracked call whose handler returns a hook-carrying response,
the wrapper appends the decrement hook after all previously attached
finalize hooks: the resulting hook sequence is the original sequence
(empty, singleton, or longer) followed by the decrement hook as last
element. -/
theorem C5_hooks_appended (st : AppState) (hr : HookedResponse)
    (hTrack : st.enable_server_load_tracking = true) :
    resultHooks (load_aware_call true (HandlerOutcome.ok (Response.hooked hr)) st) =
      some (hookList hr.background ++ [BgTask.decrementLoad]) := by
  rcases hr with ⟨bg⟩
  match bg with
  | none => simp [load_aware_call, hTrack, resultHooks, hookList]
  | some (.single t) => simp [load_aware_call, hTrack, resultHooks, hookList]
  | some (.multi ts) => simp [load_aware_call, hTrack, resultHooks, hookList]

/-- C5 witness: a response already carrying two hooks keeps them in order
and gains the decrement hook at the end. -/
theorem C5_hooks_appended_witness :
    resultHooks (load_aware_call true
        (HandlerOutcome.ok (Response.hooked
          { background := some (Background.multi [BgTask.other 1, BgTask.other 2]) }))
        { enable_server_load_tracking := true, server_load_metrics := some 0 }) =
      some [BgTask.other 1, BgTask.other 2, BgTask.decrementLoad] := by
  have h := C5_hooks_appended
    { enable_server_load_tracking := true, server_load_metrics := some 0 }
    { background := some (Background.multi [BgTask.other 1, BgTask.other 2]) } rfl
  simpa [hookList] using h

/-- C6: the UniProcExecutor bootstrap dispatches exactly the three calls
`init_worker` (with rank 0, driver flag set, and local rank taken from the
device index when present), `init_device`, `load_model`, once each and in
that order, to its single worker; and `collective_rpc` always returns the
one-element list holding exactly the synchronous local call's result. -/
theorem C6_uniproc_bootstrap_order_and_rpc :
    (∀ (dim : String) (di : Option Nat),
      (uniproc_init_executor loggingWorker [] dim di).driver_worker =
        [("init_worker",
            [{ local_rank := di.getD 0, rank := 0, distributed_init_method := dim,
               is_driver_worker := true }]),
          ("init_device", []), ("load_model", [])]) ∧
    ∀ (W R : Type) (rm : W → String → List WorkerInitKwargs → W × R)
      (ex : Exec W) (m : String) (a : List WorkerInitKwargs),
      (collective_rpc rm ex m a).2 = [(rm ex.driver_worker m a).2] := by
  constructor
  · intro dim di
    rfl
  · intro W R rm ex m a
    rfl

/-- C8: constructing an ExecutorWithExternalLauncher with a nonzero
scheduling delay factor fails at the very first assert: the step trace is
empty (no worker constructed, no bootstrap RPC issued) and the outcome is
the delay-factor configuration error. -/
theorem C8_nonzero_delay_factor_fails_before_worker (delay_factor : ℚ)
    (use_v1 enable_v1_multiprocessing : Bool)
    (envRank envLocalRank : Option Nat) (hd : delay_factor ≠ 0) :
    external_init_executor delay_factor use_v1 enable_v1_multiprocessing
        envRank envLocalRank =
      ([], Except.error InitError.assertDelayFactor) := by
  simp [external_init_executor, hd]

/-- C8 witness: delay factor 1 fails immediately with an empty step
trace. -/
theorem C8_nonzero_delay_factor_witness :
    external_init_executor 1 true true (some 0) (some 0) =
      ([], Except.error InitError.assertDelayFactor) :=
  C8_nonzero_delay_factor_fails_before_worker 1 true true (some 0) (some 0)
    (by norm_num)

/-- Helper: the trace sum decomposes as the sum, over the request ids, of
the per-request partial sums, provided every event is tagged with an id
below N. -/
theorem traceSum_filter_decomp (L : List (Nat × Int)) (N : Nat)
    (hN : ∀ p ∈ L, p.1 < N) :
    traceSum L = ∑ i ∈ Finset.range N, traceSum (L.filter (fun p => p.1 = i)) := by
  induction L with
  | nil => simp [traceSum]
  | cons q t ih =>
    have hq : q.1 < N := hN q (List.mem_cons_self q t)
    have ht : ∀ p ∈ t, p.1 < N := fun p hp => hN p (List.mem_cons_of_mem q hp)
    have hsplit : ∀ i, traceSum ((q :: t).filter (fun p => p.1 = i)) =
        (if q.1 = i then q.2 else 0) + traceSum (t.filter (fun p => p.1 = i)) := by
      intro i
      by_cases h : q.1 = i <;> simp [List.filter_cons, h, traceSum]
    calc traceSum (q :: t) = q.2 + traceSum t := by simp [traceSum]
      _ = q.2 + ∑ i ∈ Finset.range N, traceSum (t.filter (fun p => p.1 = i)) := by
          rw [ih ht]
      _ = (∑ i ∈ Finset.range N, if q.1 = i then q.2 else 0) +
            ∑ i ∈ Finset.range N, traceSum (t.filter (fun p => p.1 = i)) := by
          rw [Finset.sum_ite_eq (Finset.range N) q.1 (fun _ => q.2)]
          simp [Finset.mem_range.mpr hq]
      _ = ∑ i ∈ Finset.range N,
            ((if q.1 = i then q.2 else 0) + traceSum (t.filter (fun p => p.1 = i))) := by
          rw [Finset.sum_add_distrib]
      _ = ∑ i ∈ Finset.range N, traceSum ((q :: t).filter (fun p => p.1 = i)) := by
          exact Finset.sum_congr rfl (fun i _ => (hsplit i).symm)

/-- Helper: filtering then projecting a list and any of its head-segments
yields a head-segment relation again. -/
theorem filter_map_pref (P tL : List (Nat × Int)) (q : Nat × Int → Bool) :
    (P.filter q).map Prod.snd <+: ((P ++ tL).filter q).map Prod.snd :=
  ⟨(tL.filter q).map Prod.snd, by simp [List.filter_append]⟩

/-- Helper: every head-segment of the one-request event list `[1, -1]` sums
to a value between 0 and 1. -/
theorem sum_of_pref_incDec (M : List Int) (h : M <+: [1, -1]) :
    0 ≤ M.sum ∧ M.sum ≤ 1 := by
  rcases h with ⟨t, ht⟩
  match M with
  | [] => simp
  | [a] =>
      simp only [List.cons_append, List.nil_append, List.cons.injEq] at ht
      simp [ht.1]
  | [a, b] =>
      simp only [List.cons_append, List.nil_append, List.cons.injEq] at ht
      simp [ht.1, ht.2.1]
  | a :: b :: c :: M2 =>
      simp only [List.cons_append, List.cons.injEq] at ht
      exact absurd ht.2.2 (by simp)

/-- C2: in any interleaved run of N concurrently tracked requests — each
request contributing its increment followed by its single decrement (from
the wrapper's failure branch, the wrapper's hook-less branch, the appended
finalize hook, or the disconnect listener, by how the request ends) — the
live-request counter stays within [0, N] at every point of the trace and is
exactly 0 once all requests have finalized. -/
theorem C2_counter_bounded_returns_zero (N : Nat)
    (outcome : Nat → TrackedOutcome) (L : List (Nat × Int))
    (hI : isInterleaving L N (fun i => lifecycleDeltas (outcome i))) :
    (∀ P, P <+: L → 0 ≤ traceSum P ∧ traceSum P ≤ (N : Int)) ∧
      traceSum L = 0 := by
  obtain ⟨hids, hproj⟩ := hI
  have hdeltas : ∀ i : Fin N,
      (L.filter (fun p => p.1 = i.1)).map Prod.snd = [1, -1] := by
    intro i
    rw [hproj i]
    show lifecycleDeltas (outcome i.1) = [1, -1]
    cases outcome i.1 <;> rfl
  constructor
  · intro P hP
    rcases hP with ⟨tL, rfl⟩
    have hPids : ∀ p ∈ P, p.1 < N := fun p hp =>
      hids p (List.mem_append_left tL hp)
    rw [traceSum_filter_decomp P N hPids]
    have hterm : ∀ i ∈ Finset.range N,
        0 ≤ traceSum (P.filter (fun p => p.1 = i)) ∧
          traceSum (P.filter (fun p => p.1 = i)) ≤ 1 := by
      intro i hi
      have hpref := filter_map_pref P tL (fun p => p.1 = i)
      rw [hdeltas ⟨i, Finset.mem_range.mp hi⟩] at hpref
      have hs := sum_of_pref_incDec _ hpref
      simpa [traceSum] using hs
    refine ⟨Finset.sum_nonneg (fun i hi => (hterm i hi).1), ?_⟩
    calc ∑ i ∈ Finset.range N, traceSum (P.filter (fun p => p.1 = i))
        ≤ ∑ _i ∈ Finset.range N, (1 : Int) :=
          Finset.sum_le_sum (fun i hi => (hterm i hi).2)
      _ = (N : Int) := by simp
  · rw [traceSum_filter_decomp L N hids]
    have hzero : ∀ i ∈ Finset.range N,
        traceSum (L.filter (fun p => p.1 = i)) = 0 := by
      intro i hi
      have hd := hdeltas ⟨i, Finset.mem_range.mp hi⟩
      simp [traceSum, hd]
    rw [Finset.sum_congr rfl hzero]
    simp

/-- C2 witness: a concrete interleaving of two tracked requests — request 0
starts, request 1 starts, request 1 finalizes, request 0 finalizes — stays
balanced and ends at counter 0. -/
theorem C2_counter_bounded_returns_zero_witness :
    traceSum [((0 : Nat), (1 : Int)), (1, 1), (1, -1), (0, -1)] = 0 :=
  (C2_counter_bounded_returns_zero 2 (fun _ => TrackedOutcome.hookedResponse)
    [(0, 1), (1, 1), (1, -1), (0, -1)] ⟨by decide, by decide⟩).2

/-- Helper: a min-fold is bounded by its starting value. -/
theorem foldl_min_le_start (l : List Int) (x : Int) : l.foldl min x ≤ x := by
  induction l generalizing x with
  | nil => exact le_refl x
  | cons a t ih => exact le_trans (ih (min x a)) (min_le_left x a)

/-- Helper: a min-fold is bounded by every element of the list. -/
theorem foldl_min_le_mem (l : List Int) (x : Int) :
    ∀ y ∈ l, l.foldl min x ≤ y := by
  induction l generalizing x with
  | nil => intro y hy; cases hy
  | cons a t ih =>
    intro y hy
    rcases List.mem_cons.mp hy with hya | hyt
    · rw [hya]
      exact le_trans (foldl_min_le_start t (min x a)) (min_le_right x a)
    · exact ih (min x a) y hyt

/-- Helper: a min-fold equals its starting value or some element of the
list. -/
theorem foldl_min_mem (l : List Int) (x : Int) :
    l.foldl min x = x ∨ l.foldl min x ∈ l := by
  induction l generalizing x with
  | nil => exact Or.inl rfl
  | cons a t ih =>
    rcases ih (min x a) with h | h
    · rcases min_choice x a with hx | ha
      · exact Or.inl (by rw [List.foldl_cons, h, hx])
      · exact Or.inr (by rw [List.foldl_cons, h, ha]; exact List.mem_cons_self a t)
    · exact Or.inr (List.mem_cons_of_mem a h)

/-- Helper: when the starting value itself occurs in the list, the min-fold
does not depend on which occurring value it starts from. -/
theorem foldl_min_start_irrel (l : List Int) (a b : Int) (ha : a ∈ l)
    (hb : b ∈ l) : l.foldl min a = l.foldl min b := by
  have hab : ∀ u v : Int, u ∈ l → v ∈ l → l.foldl min u ≤ l.foldl min v := by
    intro u v hu hv
    rcases foldl_min_mem l v with h | h
    · rw [h]; exact foldl_min_le_mem l u v hv
    · exact foldl_min_le_mem l u _ h
  exact le_antisymm (hab a b ha hb) (hab b a hb ha)

/-- C7: determine_num_available_blocks yields the same pair on every rank;
that pair is a componentwise lower bound of every rank's local report and
each of its components is attained by some rank (so it is the componentwise
MIN-reduction); on the reports [(10,20), (8,25), (9,22)] every rank gets
(8, 20). -/
theorem C7_min_reduction_identical_on_ranks :
    (∀ (reports : List (Int × Int)) (r r2 : Fin reports.length),
      determine_num_available_blocks reports r =
        determine_num_available_blocks reports r2) ∧
    (∀ (reports : List (Int × Int)) (r : Fin reports.length),
      ∀ p ∈ reports,
        (determine_num_available_blocks reports r).1 ≤ p.1 ∧
        (determine_num_available_blocks reports r).2 ≤ p.2) ∧
    (∀ (reports : List (Int × Int)) (r : Fin reports.length),
      (determine_num_available_blocks reports r).1 ∈ reports.map Prod.fst ∧
      (determine_num_available_blocks reports r).2 ∈ reports.map Prod.snd) ∧
    (∀ r, determine_num_available_blocks [(10, 20), (8, 25), (9, 22)] r =
      (8, 20)) := by
  have hget : ∀ (reports : List (Int × Int)) (r : Fin reports.length),
      (reports.get r).1 ∈ reports.map Prod.fst ∧
      (reports.get r).2 ∈ reports.map Prod.snd := by
    intro reports r
    have hmem : reports.get r ∈ reports := List.get_mem reports r.1 r.2
    exact ⟨List.mem_map_of_mem Prod.fst hmem, List.mem_map_of_mem Prod.snd hmem⟩
  refine ⟨?_, ?_, ?_, ?_⟩
  · intro reports r r2
    have h1 := foldl_min_start_irrel (reports.map Prod.fst)
      (reports.get r).1 (reports.get r2).1 (hget reports r).1 (hget reports r2).1
    have h2 := foldl_min_start_irrel (reports.map Prod.snd)
      (reports.get r).2 (reports.get r2).2 (hget reports r).2 (hget reports r2).2
    show ((reports.map Prod.fst).foldl min (reports.get r).1,
          (reports.map Prod.snd).foldl min (reports.get r).2) =
        ((reports.map Prod.fst).foldl min (reports.get r2).1,
          (reports.map Prod.snd).foldl min (reports.get r2).2)
    rw [h1, h2]
  · intro reports r p hp
    constructor
    · exact foldl_min_le_mem (reports.map Prod.fst) (reports.get r).1 p.1
        (List.mem_map_of_mem Prod.fst hp)
    · exact foldl_min_le_mem (reports.map Prod.snd) (reports.get r).2 p.2
        (List.mem_map_of_mem Prod.snd hp)
  · intro reports r
    constructor
    · rcases foldl_min_mem (reports.map Prod.fst) (reports.get r).1 with h | h
      · rw [determine_num_available_blocks, h]; exact (hget reports r).1
      · exact h
    · rcases foldl_min_mem (reports.map Prod.snd) (reports.get r).2 with h | h
      · rw [determine_num_available_blocks, h]; exact (hget reports r).2
      · exact h
  · decide

/-- C7 witness: rank 1 of the three-rank example holds a local report of
(8, 25) and gets the reduced pair (8, 20), which lower-bounds rank 0's
local report (10, 20). -/
theorem C7_min_reduction_witness :
    (determine_num_available_blocks [(10, 20), (8, 25), (9, 22)] ⟨1, by decide⟩).1
        ≤ 10 ∧
    (determine_num_available_blocks [(10, 20), (8, 25), (9, 22)] ⟨1, by decide⟩).2
        ≤ 20 :=
  C7_min_reduction_identical_on_ranks.2.1 [(10, 20), (8, 25), (9, 22)]
    ⟨1, by decide⟩ (10, 20) (by decide)

/-- C9 counterexample: after reinitialize_distributed with the shutdown
sentinel the executor is in the SHUTDOWN state, yet a subsequent
collective_rpc does not fail with a terminal-state error — it still
dispatches the method to the worker (the worker log records the call) and
returns its one-element answer, refuting the claimed terminal-state
failure. -/
theorem C9_counterexample :
    (reinitialize_distributed
        (fun (w : List String) _ => w ++ ["reinitialize_distributed"])
        { driver_worker := [], state := ExecState.ready }
        { new_data_parallel_rank := ReconfigRank.shutdownCurrentRank }).state =
      ExecState.shutdownState ∧
    (collective_rpc (fun (w : List String) m _ => (w ++ [m], (0 : Nat)))
        (reinitialize_distributed
          (fun (w : List String) _ => w ++ ["reinitialize_distributed"])
          { driver_worker := [], state := ExecState.ready }
          { new_data_parallel_rank := ReconfigRank.shutdownCurrentRank })
        "execute_model" []).2 = [0] ∧
    (collective_rpc (fun (w : List String) m _ => (w ++ [m], (0 : Nat)))
        (reinitialize_distributed
          (fun (w : List String) _ => w ++ ["reinitialize_distributed"])
          { driver_worker := [], state := ExecState.ready }
          { new_data_parallel_rank := ReconfigRank.shutdownCurrentRank })
        "execute_model" []).1.driver_worker =
      ["reinitialize_distributed", "execute_model"] := by
  exact ⟨rfl, rfl, rfl⟩

/-- C9 (amended): after reinitialize_distributed with a request whose new
data-parallel rank is the shutdown sentinel, the worker has been
reconfigured and the executor is in the SHUTDOWN state; however, a
subsequent collective_rpc performs no terminal-state check — it still
dispatches to the worker and returns the one-element answer list. -/
theorem C9_shutdown_state_rpc_still_dispatches {W R : Type}
    (worker_reconfig : W → ReconfigureDistributedRequest → W)
    (rm : W → String → List WorkerInitKwargs → W × R) (ex : Exec W)
    (req : ReconfigureDistributedRequest)
    (hreq : req.new_data_parallel_rank = ReconfigRank.shutdownCurrentRank) :
    (reinitialize_distributed worker_reconfig ex req).state =
      ExecState.shutdownState ∧
    ∀ (m : String) (a : List WorkerInitKwargs),
      collective_rpc rm (reinitialize_distributed worker_reconfig ex req) m a =
        ({ driver_worker := (rm (worker_reconfig ex.driver_worker req) m a).1,
           state := ExecState.shutdownState },
         [(rm (worker_reconfig ex.driver_worker req) m a).2]) := by
  constructor
  · simp [reinitialize_distributed, hreq, Exec.shutdown]
  · intro m a
    simp [reinitialize_distributed, hreq, Exec.shutdown, collective_rpc]

/-- C9 witness: concrete run of the amended claim with a logging worker. -/
theorem C9_shutdown_state_rpc_still_dispatches_witness :
    (reinitialize_distributed (fun (w : List String) _ => w)
        { driver_worker := [], state := ExecState.ready }
        { new_data_parallel_rank := ReconfigRank.shutdownCurrentRank }).state =
      ExecState.shutdownState :=
  (C9_shutdown_state_rpc_still_dispatches (fun (w : List String) _ => w)
    (fun w m _ => (w ++ [m], 0))
    { driver_worker := [], state := ExecState.ready }
    { new_data_parallel_rank := ReconfigRank.shutdownCurrentRank } rfl).1

/-- C10: on observing a disconnect message the listener decrements the
counter exactly when tracking is enabled and the counter attribute exists,
and leaves the state untouched otherwise (non-disconnect messages are
skipped); a cancelled tracked handler leaves the wrapper via the
cancellation path with its increment still in place — the except-branch
decrement does not run — and the listener's disconnect decrement is what
restores the counter to its pre-increment value. -/
theorem C10_disconnect_decrement_rebalances (st : AppState)
    (tl : List RcvMessage) (v : Int) :
    (st.enable_server_load_tracking = true → st.server_load_metrics = some v →
      listen_for_disconnect (RcvMessage.httpDisconnect :: tl) st =
        some { st with server_load_metrics := some (v - 1) }) ∧
    (st.enable_server_load_tracking = false ∨ st.server_load_metrics = none →
      listen_for_disconnect (RcvMessage.httpDisconnect :: tl) st = some st) ∧
    (∀ s, listen_for_disconnect (RcvMessage.other s :: tl) st =
      listen_for_disconnect tl st) ∧
    (st.enable_server_load_tracking = true →
      load_aware_call true HandlerOutcome.cancelled st =
        LoadCallResult.cancelledProp
          { st with
              server_load_metrics := some (st.server_load_metrics.getD 0 + 1) } ∧
      listen_for_disconnect (RcvMessage.httpDisconnect :: tl)
          { st with
              server_load_metrics := some (st.server_load_metrics.getD 0 + 1) } =
        some { st with
              server_load_metrics := some (st.server_load_metrics.getD 0) }) := by
  refine ⟨?_, ?_, ?_, ?_⟩
  · intro htrack hmet
    simp [listen_for_disconnect, htrack, hmet]
  · intro hcase
    rcases hcase with htrack | hmet
    · simp [listen_for_disconnect, htrack]
    · simp [listen_for_disconnect, hmet]
  · intro s
    rfl
  · intro htrack
    constructor
    · simp [load_aware_call, htrack]
    · simp [listen_for_disconnect, htrack]

/-- C10 witness: with tracking enabled and counter 7, a cancelled tracked
request leaves the counter at 8 via the wrapper, and the disconnect
listener brings it back to 7. -/
theorem C10_disconnect_decrement_rebalances_witness :
    load_aware_call true HandlerOutcome.cancelled
        { enable_server_load_tracking := true, server_load_metrics := some 7 } =
      LoadCallResult.cancelledProp
        { enable_server_load_tracking := true, server_load_metrics := some 8 } ∧
    listen_for_disconnect [RcvMessage.httpDisconnect]
        { enable_server_load_tracking := true, server_load_metrics := some 8 } =
      some { enable_server_load_tracking := true, server_load_metrics := some 7 } := by
  have h := (C10_disconnect_decrement_rebalances
    { enable_server_load_tracking := true, server_load_metrics := some 7 }
    [] 7).2.2.2 rfl
  simpa using h

end VllmSpec
